import Mathlib

/-!
Verification development for the `ts-extended-deprecation-plugin` repository
(a TypeScript language-service plugin that flags usages of symbols marked
deprecated, including through import/export alias chains and wildcard
re-exports).

The TypeScript parser/type-checker is an external oracle (spec section 1);
its queries (`getSymbolAtLocation`, `getExportsOfModule`, `getAliasedSymbol`,
`getDeclarations`, `.parent` chains, `resolveModuleName`, `getSourceFile`) are
modelled as fields of a `Checker` environment record.  AST nodes carry the
data the plugin reads from them: span, source file name, text, and the
comment texts that `getCommentsFromNode` (src/src/utils.ts) would extract
(leading comment ranges and jsDoc blocks).  Absent values (`undefined` /
`null` in TypeScript) are `Option`; code paths that would raise a runtime
`TypeError` are embedded in `Except String`.
-/

namespace TSDeprecation

/-- `ts.DiagnosticCategory`. -/
inductive DiagnosticCategory
  | warning
  | error
  | suggestion
  | message
  deriving DecidableEq, Repr

/-- Kinds of AST nodes the plugin distinguishes (`ts.isSourceFile`,
`ts.isImportSpecifier`, `ts.isDeclarationStatement`); everything else is
`other`. -/
inductive NodeKind
  | sourceFile
  | importSpecifier
  | declStatement
  | other
  deriving DecidableEq, Repr

/-- An AST node, as the plugin observes it: `start` is `node.getStart()`,
`stop` is `node.getEnd()`, `file` is `node.getSourceFile().fileName`,
`text` is `node.getText()`.  `leadingComments` are the comment texts of the
leading comment ranges before the node and `jsDocComments` the texts of its
attached jsDoc blocks (what `getCommentsFromNode` in src/src/utils.ts
extracts). -/
structure Node where
  kind : NodeKind
  start : Nat
  stop : Nat
  file : String
  text : String
  leadingComments : List String
  jsDocComments : List String
  deriving DecidableEq, Repr

/-- A `ts.Symbol`: identity, `getName()`, and whether
`flags & ts.SymbolFlags.Alias` is set. -/
structure Symbol where
  id : Nat
  name : String
  isAlias : Bool
  deriving DecidableEq, Repr

/-- One `export * from ...` declaration found among a module symbol's
exports under the synthetic `__export` entry (src/src/index.ts lines
331-352).  `node` is the export-declaration node itself (used as the
declaration override of the diagnostic), `specText` is
`(moduleSpecifier as any).text`, `specGetText` is
`moduleSpecifier.getText()`, and `parent` is `node.parent`. -/
structure WildcardDecl where
  node : Node
  specText : String
  specGetText : String
  parent : Node
  deriving DecidableEq, Repr

/-- The parser/type-checker oracle plus the program, as consumed by the
plugin (spec section 6).  `symbols` is the finite universe of symbols of the
program; `parentsOf n` lists the chain `n.parent, n.parent.parent, ...`;
`getSourceFileSymbol f` composes `program.getSourceFile f` with
`checker.getSymbolAtLocation` on the resulting source file (both absences
collapse to `none`); `wildcardExportDeclsOf m` gathers the declarations of
the export entries of `m` named `__export` (src/src/index.ts lines
329-357); `findImportNodeByText stmt name` models the nested
`forEachChild` search for a child node whose `getText()` equals `name`
(lines 471-483) and `findImportSpecifier stmt name` the recursive search
for an import specifier whose `name.text` equals `name` (lines 539-549). -/
structure Checker where
  symbols : List Symbol
  getDeclarations : Symbol → List Node
  getAliasedSymbol : Symbol → Option Symbol
  getSymbolAtLocation : Node → Option Symbol
  parentsOf : Node → List Node
  resolveModuleName : String → String → Option String
  getSourceFileSymbol : String → Option Symbol
  getExportsOfModule : Symbol → List Symbol
  wildcardExportDeclsOf : Symbol → List WildcardDecl
  findImportNodeByText : Node → String → Option Node
  findImportSpecifier : Node → String → Option Node

-- Decidable equality for `Except` results of the embedded functions.
deriving instance DecidableEq for Except

/-- `pat` is a prefix of the character list. -/
def charsPrefix : List Char → List Char → Bool
  | [], _ => true
  | _ :: _, [] => false
  | c :: cs, d :: ds => c == d && charsPrefix cs ds

/-- `pat` occurs inside the character list (as a prefix of some suffix). -/
def charsContains (pat : List Char) : List Char → Bool
  | [] => charsPrefix pat []
  | c :: cs => charsPrefix pat (c :: cs) || charsContains pat cs

/-- `a.includes b` on JavaScript strings (used for
`comment.includes("@deprecated")` and
`resolvedFileName.includes("node_modules")`): `b` occurs as a substring of
`a`. -/
def containsSubstr (a b : String) : Bool :=
  charsContains b.data a.data

/-- `a.endsWith b` on JavaScript strings: `b` read backwards is a prefix of
`a` read backwards. -/
def strEndsWith (a b : String) : Bool :=
  charsPrefix b.data.reverse a.data.reverse

/-!  ## src/src/utils.ts  -/

/-- `isSupportedFileType` (src/src/utils.ts lines 15-18). -/
def isSupportedFileType (fileName : String) : Bool :=
  let supportedExtensions := [".ts", ".tsx", ".js", ".jsx"]
  supportedExtensions.any fun ext => strEndsWith fileName ext

/-- `getCommentsFromNode` (src/src/utils.ts lines 47-74): `[]` for an
absent node, otherwise the leading comment ranges followed by the jsDoc
blocks. -/
def getCommentsFromNode (node : Option Node) : List String :=
  match node with
  | none => []
  | some n => n.leadingComments ++ n.jsDocComments

/-- `getCommentsFromDeclaration` (src/src/utils.ts lines 149-151). -/
def getCommentsFromDeclaration (declaration : Option Node) : List String :=
  getCommentsFromNode declaration

/-- `isDeclarationDeprecated` (src/src/utils.ts lines 158-182): some
preceding comment contains the substring `@deprecated`. -/
def isDeclarationDeprecated (declaration : Option Node) : Bool :=
  (getCommentsFromDeclaration declaration).any fun comment =>
    containsSubstr comment "@deprecated"

/-- `isSymbolDeprecated` (src/src/utils.ts lines 133-136): *some*
declaration of the symbol (not only the first) is deprecated. -/
def isSymbolDeprecated (env : Checker) (symbol : Symbol) : Bool :=
  (env.getDeclarations symbol).any fun d => isDeclarationDeprecated (some d)

/-- `isNodeDeprecated` (src/src/utils.ts lines 82-94). -/
def isNodeDeprecated (env : Checker) (node : Node) : Bool :=
  (match env.getSymbolAtLocation node with
   | some s => isSymbolDeprecated env s
   | none => false)
  || (node.kind == NodeKind.declStatement && isDeclarationDeprecated (some node))

/-!  ## The alias-chain walker (src/unnamed/part_000 lines 327-368)  -/

/-- Loop body of `isSymbolDeprecatedRecursively`: `fuel` bounds the number
of iterations of the `while` loop; `visitedSymbols` is the visited-set.
One iteration: stop with `false` on a revisit; report `true` as soon as the
current symbol is deprecated; stop with `false` when the current symbol is
not an alias, has no alias target, or is its own alias target; otherwise
follow the alias edge.  (`getImmediateAliasedSymbol` in the source is
consulted only for logging and has no effect on the result.) -/
def isSymbolDeprecatedRecursivelyAux (env : Checker) :
    Nat → Symbol → List Symbol → Option Bool
  | 0, _, _ => none
  | fuel + 1, currentSymbol, visitedSymbols =>
    if currentSymbol ∈ visitedSymbols then some false
    else if isSymbolDeprecated env currentSymbol then some true
    else if !currentSymbol.isAlias then some false
    else
      match env.getAliasedSymbol currentSymbol with
      | some aliasedSymbol =>
        if aliasedSymbol = currentSymbol then some false
        else
          isSymbolDeprecatedRecursivelyAux env fuel aliasedSymbol
            (currentSymbol :: visitedSymbols)
      | none => some false

/-- `isSymbolDeprecatedRecursively` (src/unnamed/part_000 lines 327-368).
The `while` loop is run with fuel `|symbols| + 1`; `none` would mean the
fuel ran out, which the termination theorem rules out for checkers whose
alias edges stay inside `symbols`. -/
def isSymbolDeprecatedRecursively (env : Checker) (symbol : Symbol) :
    Option Bool :=
  isSymbolDeprecatedRecursivelyAux env (env.symbols.length + 1) symbol []

/-- The alias chain the walker traverses, as a list: the start symbol
followed by the symbols reached by repeatedly taking the alias target,
cut off at a revisit, a non-alias symbol, a missing target, or a
self-target (same stopping conditions as the walker, deprecation aside). -/
def aliasChainAux (env : Checker) : Nat → Symbol → List Symbol → List Symbol
  | 0, _, _ => []
  | fuel + 1, s, visited =>
    if s ∈ visited then []
    else
      s :: (if !s.isAlias then []
        else
          match env.getAliasedSymbol s with
          | some a => if a = s then [] else aliasChainAux env fuel a (s :: visited)
          | none => [])

/-- The alias chain starting at `symbol`, with the same fuel as the
walker. -/
def aliasChain (env : Checker) (symbol : Symbol) : List Symbol :=
  aliasChainAux env (env.symbols.length + 1) symbol []

/-- Closure of the alias edges: every alias target of a symbol of the
program is again a symbol of the program. -/
def closedCheckerB (env : Checker) : Bool :=
  env.symbols.all fun s =>
    match env.getAliasedSymbol s with
    | none => true
    | some a => decide (a ∈ env.symbols)

/-!  ## Diagnostics  -/

/-- The single-quote character, used in diagnostic message texts. -/
def sq : String := String.singleton (Char.ofNat 39)

/-- An entry of a diagnostic's `relatedInformation` list
(`ts.DiagnosticRelatedInformation`). -/
structure RelatedInfo where
  start : Nat
  length : Nat
  file : String
  messageText : String
  category : DiagnosticCategory
  code : Nat
  deriving DecidableEq, Repr

/-- A `ts.Diagnostic` as the plugin builds it; `file` is the owning source
file's name. -/
structure Diagnostic where
  file : String
  start : Nat
  length : Nat
  messageText : String
  category : DiagnosticCategory
  reportsDeprecated : Bool
  code : Nat
  relatedInformation : List RelatedInfo
  deriving DecidableEq, Repr

/-- `areDiagnosticEqual` (src/src/index.ts lines 11-19): the deduplication
key is (start, length, code, category, file). -/
def areDiagnosticEqual (a b : Diagnostic) : Bool :=
  a.start == b.start &&
  a.length == b.length &&
  a.code == b.code &&
  a.category == b.category &&
  a.file == b.file

/-- Body of the second `forEach` of `getUniqueDiagnostics`
(src/src/index.ts lines 34-40): push the new diagnostic unless a key-equal
entry is already present. -/
def addUniqueDiagnostic (uniqueDiagnostics : List Diagnostic)
    (diagnostic : Diagnostic) : List Diagnostic :=
  if uniqueDiagnostics.any fun uniqueDiagnostic =>
      areDiagnosticEqual uniqueDiagnostic diagnostic
  then uniqueDiagnostics
  else uniqueDiagnostics ++ [diagnostic]

/-- `getUniqueDiagnostics` (src/src/index.ts lines 21-43): the first
`forEach` keeps every prior diagnostic with no key-equal counterpart among
the new diagnostics, the second appends each new diagnostic unless a
key-equal entry was already kept. -/
def getUniqueDiagnostics (priorDiagnostics diagnostics : List Diagnostic) :
    List Diagnostic :=
  let uniqueDiagnostics := priorDiagnostics.filter fun priorDiagnostic =>
    !(diagnostics.any fun diagnostic => areDiagnosticEqual diagnostic priorDiagnostic)
  diagnostics.foldl addUniqueDiagnostic uniqueDiagnostics

/-- `createDeprecatedDiagnostic` (src/src/index.ts lines 55-105).  The
entry log interpolates `node.getText()`, so a `null` node raises a
`TypeError` before anything else; `declarationOverride || symbol.getDeclarations()[0]`
raises when the override is absent and the symbol is absent or has no
declarations (`getStart` of `undefined`).  With the declaration in hand, a
key-equal prior diagnostic suppresses the result (`null`, here `none`);
otherwise the diagnostic is built: positioned at the node, message
`'name' is deprecated.`, code 6385, one related-information entry spanning
the declaration with code 2798. -/
def createDeprecatedDiagnostic (env : Checker) (node : Option Node)
    (symbolName : String) (symbol : Option Symbol) (sourceFile : String)
    (priorDiagnostics : List Diagnostic) (declarationOverride : Option Node) :
    Except String (Option Diagnostic) :=
  match node with
  | none => .error "TypeError: Cannot read properties of null (reading getText)"
  | some n =>
    let declOpt := match declarationOverride with
      | some d => some d
      | none => symbol.bind fun s => (env.getDeclarations s).head?
    match declOpt with
    | none => .error "TypeError: Cannot read properties of undefined (reading getStart)"
    | some declaration =>
      let diagnosticStart := n.start
      let diagnosticEnd := n.stop - n.start
      let diagnosticCode := 6385
      let alreadyReported := priorDiagnostics.any fun diagnostic =>
        diagnostic.start == diagnosticStart &&
        diagnostic.length == diagnosticEnd &&
        diagnostic.code == diagnosticCode
      if alreadyReported then .ok none
      else
        .ok (some {
          file := sourceFile
          start := diagnosticStart
          length := diagnosticEnd
          messageText := sq ++ symbolName ++ sq ++ " is deprecated."
          category := DiagnosticCategory.warning
          reportsDeprecated := true
          code := diagnosticCode
          relatedInformation := [{
            start := declaration.start
            length := declaration.stop - declaration.start
            file := declaration.file
            messageText := "The declaration was marked as deprecated here."
            category := DiagnosticCategory.error
            code := 2798 }] })

/-- `createDeprecatedDiagnostic` of src/unnamed/part_000 (lines 23-72):
identical, except the symbol name comes from the symbol itself
(`symbol.getName()` in the entry log raises on an absent symbol before the
node is read). -/
def createDeprecatedDiagnosticP0 (env : Checker) (node : Option Node)
    (symbol : Option Symbol) (sourceFile : String)
    (priorDiagnostics : List Diagnostic) (declarationOverride : Option Node) :
    Except String (Option Diagnostic) :=
  match symbol with
  | none => .error "TypeError: Cannot read properties of undefined (reading getName)"
  | some s =>
    createDeprecatedDiagnostic env node s.name (some s) sourceFile
      priorDiagnostics declarationOverride

/-!  ## Named-export handling (src/unnamed/part_000 lines 195-270)  -/

/-- The `while (parentNode && !ts.isSourceFile(parentNode))` walk shared by
the import and export branches: the first deprecated ancestor strictly
below the source file, if any.  The argument is the `.parent` chain of the
declaration. -/
def findDeprecatedAncestor (env : Checker) : List Node → Option Node
  | [] => none
  | p :: rest =>
    if p.kind == NodeKind.sourceFile then none
    else if isNodeDeprecated env p then some p
    else findDeprecatedAncestor env rest

/-- An element of a named exports clause: `name` is `element.name.text` and
`nameNode` the `element.name` identifier node. -/
structure ExportSpecifierEl where
  name : String
  nameNode : Node
  deriving DecidableEq, Repr

/-- Processing of one element of a named exports clause
(src/unnamed/part_000 lines 214-266).  `node` is the export statement.
The export symbol is looked up in the re-exported module's exports when a
module specifier is present, in the local scope otherwise.  Then, in
order: a deprecated ancestor of the symbol's first declaration yields a
diagnostic positioned at `node`; a deprecated declaration itself yields a
diagnostic positioned at *the declaration* (lines 250-260 pass
`exportDeclaration` as the diagnostic's node); a recursively deprecated
symbol yields a diagnostic positioned at `node` with no override. -/
def checkExportElement (env : Checker) (node : Node)
    (moduleSpecifier : Option Node) (exportedSymbols : List Symbol)
    (el : ExportSpecifierEl) : Except String (Option Diagnostic) :=
  let exportSymbol : Option Symbol :=
    if moduleSpecifier.isSome && decide (0 < exportedSymbols.length) then
      exportedSymbols.find? fun s => s.name == el.name
    else
      env.getSymbolAtLocation el.nameNode
  match exportSymbol with
  | none => .ok none
  | some es =>
    let exportDeclaration := (env.getDeclarations es).head?
    let parents := match exportDeclaration with
      | some d => env.parentsOf d
      | none => []
    match findDeprecatedAncestor env parents with
    | some _ =>
      createDeprecatedDiagnosticP0 env (some node) (some es) node.file []
        exportDeclaration
    | none =>
      if isDeclarationDeprecated exportDeclaration then
        createDeprecatedDiagnosticP0 env exportDeclaration (some es) node.file []
          exportDeclaration
      else if isSymbolDeprecatedRecursively env es == some true then
        createDeprecatedDiagnosticP0 env (some node) (some es) node.file [] none
      else
        .ok none

/-- The `for` loop over the elements of the export clause
(src/unnamed/part_000 lines 214-270): the first diagnostic returned by an
element ends the loop. -/
def checkExportElements (env : Checker) (node : Node)
    (moduleSpecifier : Option Node) (exportedSymbols : List Symbol) :
    List ExportSpecifierEl → Except String (Option Diagnostic)
  | [] => .ok none
  | el :: rest => do
    match ← checkExportElement env node moduleSpecifier exportedSymbols el with
    | some d => pure (some d)
    | none => checkExportElements env node moduleSpecifier exportedSymbols rest

/-- The named-exports branch of `isImportExportDeclarationDeprecated`
(src/unnamed/part_000 lines 195-270): resolve the exported symbols of the
re-exported module when a module specifier is present, then process the
elements. -/
def checkNamedExports (env : Checker) (node : Node)
    (moduleSpecifier : Option Node) (elements : List ExportSpecifierEl) :
    Except String (Option Diagnostic) :=
  let exportedSymbols : List Symbol :=
    match moduleSpecifier with
    | some m =>
      match env.getSymbolAtLocation m with
      | some ms => env.getExportsOfModule ms
      | none => []
    | none => []
  checkExportElements env node moduleSpecifier exportedSymbols elements

/-!  ## Import resolution engine (src/src/index.ts lines 229-584)  -/

/-- JavaScript `a || b` on an optional string (`optionalSymbolToMatch?.getName() || importName`):
an absent or empty (falsy) left operand yields the right operand. -/
def jsStringOr (a : Option String) (b : String) : String :=
  match a with
  | some s => if s == "" then b else s
  | none => b

/-- An element of a named imports clause: `name` is `element.name.text` and
`nameNode` the `element.name` identifier node. -/
structure ImportSpecifierEl where
  name : String
  nameNode : Node
  deriving DecidableEq, Repr

/-- An import declaration as the engine reads it: the statement node, the
module specifier's text, and the named bindings (`none` when the import
clause is absent or its bindings are not named imports). -/
structure ImportStmt where
  node : Node
  moduleName : String
  namedBindings : Option (List ImportSpecifierEl)
  deriving Repr

/-- The defensive three-attempt resolution of a wildcard export
declaration's module specifier (src/src/index.ts lines 371-392): the
specifier's `text`, then its `getText()`, then the enclosing module's own
file name, each resolved relative to the enclosing module's file. -/
def resolveWildcardModule (env : Checker) (moduleFileName : String)
    (w : WildcardDecl) : Option String :=
  match env.resolveModuleName w.specText moduleFileName with
  | some resolved => some resolved
  | none =>
    match env.resolveModuleName w.specGetText moduleFileName with
    | some resolved => some resolved
    | none => env.resolveModuleName moduleFileName moduleFileName

/-- Whether a wildcard export declaration forwards an export named
`importNameToMatch`: its module specifier resolves, the resolved module has
a symbol, and that module's exports contain the name. -/
def wildcardHasMatch (env : Checker) (moduleFileName importNameToMatch : String)
    (w : WildcardDecl) : Bool :=
  match resolveWildcardModule env moduleFileName w with
  | none => false
  | some resolvedWildcardFileName =>
    match env.getSourceFileSymbol resolvedWildcardFileName with
    | none => false
    | some wildcardModuleSymbol =>
      ((env.getExportsOfModule wildcardModuleSymbol).find? fun e =>
        e.name == importNameToMatch).isSome

/-- One iteration of the `forEach` over the module's wildcard export
declarations (src/src/index.ts lines 360-441).  The accumulator is the
mutable pair (`exportSymbol`, `exportSymbolDeclaration`).  A declaration
whose specifier does not resolve is skipped; a resolved module whose
source file or module symbol is absent makes `getExportsOfModule` raise; a
forwarded export matching the name *overwrites* the accumulator with the
declaration's parent symbol and the declaration itself — there is no break,
so a later match overwrites an earlier one. -/
def wildcardFallbackStep (env : Checker) (moduleFileName importNameToMatch : String)
    (acc : Option Symbol × Option Node) (w : WildcardDecl) :
    Except String (Option Symbol × Option Node) :=
  match resolveWildcardModule env moduleFileName w with
  | none => .ok acc
  | some resolvedWildcardFileName =>
    match env.getSourceFileSymbol resolvedWildcardFileName with
    | none => .error "TypeError: Cannot read properties of undefined (reading flags)"
    | some wildcardModuleSymbol =>
      let wildcardModuleExports := env.getExportsOfModule wildcardModuleSymbol
      let hasTargetExport := (wildcardModuleExports.find? fun e =>
        e.name == importNameToMatch).isSome
      if hasTargetExport then
        .ok (env.getSymbolAtLocation w.parent, some w.node)
      else
        .ok acc

/-- The `forEach` over the wildcard export declarations: run the step on
each declaration in order, threading the accumulator; an exception
propagates out of the loop. -/
def wildcardFallbackGo (env : Checker) (moduleFileName importNameToMatch : String) :
    List WildcardDecl → (Option Symbol × Option Node) →
    Except String (Option Symbol × Option Node)
  | [], acc => .ok acc
  | w :: rest, acc =>
    match wildcardFallbackStep env moduleFileName importNameToMatch acc w with
    | .ok acc2 => wildcardFallbackGo env moduleFileName importNameToMatch rest acc2
    | .error e => .error e

/-- The whole wildcard fallback (src/src/index.ts lines 360-441): run the
loop over the module's wildcard export declarations, starting from an
unset accumulator. -/
def wildcardFallback (env : Checker) (moduleFileName importNameToMatch : String)
    (decls : List WildcardDecl) : Except String (Option Symbol × Option Node) :=
  wildcardFallbackGo env moduleFileName importNameToMatch decls (none, none)

/-- The ancestor-scope walk of the import engine (src/src/index.ts lines
459-503): for *each* deprecated ancestor of the export symbol's declaration
strictly below the source file, locate the import specifier node by text
and push a diagnostic anchored there with the declaration as override (the
walk continues past a hit).  Caching the diagnostic under the export
symbol's name raises when that symbol is absent. -/
def ancestorDiagnostics (env : Checker) (stmt : ImportStmt)
    (importName importNameToMatch : String) (exportSymbol : Option Symbol)
    (exportSymbolDeclaration : Node) :
    List Node → List Diagnostic → Except String (List Diagnostic)
  | [], acc => .ok acc
  | p :: rest, acc =>
    if p.kind == NodeKind.sourceFile then .ok acc
    else if isNodeDeprecated env p then do
      let importNode := env.findImportNodeByText stmt.node importName
      let diagnostic ← createDeprecatedDiagnostic env importNode
        importNameToMatch exportSymbol exportSymbolDeclaration.file []
        (some exportSymbolDeclaration)
      match exportSymbol with
      | none => .error "TypeError: Cannot read properties of undefined (reading getName)"
      | some _ =>
        ancestorDiagnostics env stmt importName importNameToMatch exportSymbol
          exportSymbolDeclaration rest (acc ++ diagnostic.toList)
    else
      ancestorDiagnostics env stmt importName importNameToMatch exportSymbol
        exportSymbolDeclaration rest acc

/-- The tail of the per-element processing (src/src/index.ts lines
456-568), common to the direct-export and wildcard cases: the
ancestor-scope walk over the declaration's parents, then — when an export
symbol was resolved and its declaration has a parent — the direct
deprecation check on the declaration, anchored at the import specifier
found by `findImportSpecifier`. -/
def finishImportElement (env : Checker) (stmt : ImportStmt)
    (importName importNameToMatch : String) (exportSymbol : Option Symbol)
    (exportSymbolDeclaration : Option Node) (diagnostics : List Diagnostic) :
    Except String (List Diagnostic) := do
  let diagnosticsAfterParents ←
    match exportSymbolDeclaration with
    | none => pure diagnostics
    | some decl =>
      ancestorDiagnostics env stmt importName importNameToMatch exportSymbol
        decl (env.parentsOf decl) diagnostics
  match exportSymbol with
  | none => pure diagnosticsAfterParents
  | some es =>
    let declaration := match exportSymbolDeclaration with
      | some d => some d
      | none => (env.getDeclarations es).head?
    match declaration with
    | none => pure diagnosticsAfterParents
    | some decl =>
      match env.parentsOf decl with
      | [] => pure diagnosticsAfterParents
      | _ :: _ =>
        if isDeclarationDeprecated (some decl) then do
          let importNode := env.findImportSpecifier stmt.node importName
          let diagnostic ← createDeprecatedDiagnostic env importNode
            importNameToMatch (some es) stmt.node.file [] (some decl)
          pure (diagnosticsAfterParents ++ diagnostic.toList)
        else
          pure diagnosticsAfterParents

/-- Per-element processing of the named import bindings (src/src/index.ts
lines 287-569).  The cache lookup keyed by the element symbol's name raises
when `getSymbolAtLocation` on the element name is absent.  A direct export
matching the element name is used, unless a target-symbol filter is present
and its name differs (skip).  With no direct export, the wildcard fallback
supplies the export symbol and declaration. -/
def processImportElement (env : Checker) (stmt : ImportStmt)
    (moduleSymbol : Symbol) (moduleFileName : String) (exports : List Symbol)
    (optionalSymbolToMatch : Option Symbol) (diagnostics : List Diagnostic)
    (el : ImportSpecifierEl) : Except String (List Diagnostic) :=
  let importName := el.name
  match env.getSymbolAtLocation el.nameNode with
  | none => .error "TypeError: Cannot read properties of undefined (reading getName)"
  | some _elementSymbol =>
    let exportSymbolFound := exports.find? fun s => s.name == importName
    let importNameToMatch := jsStringOr (optionalSymbolToMatch.map Symbol.name) importName
    match exportSymbolFound with
    | none => do
      let wildcardExportDeclarations := env.wildcardExportDeclsOf moduleSymbol
      let (exportSymbol, exportSymbolDeclaration) ←
        wildcardFallback env moduleFileName importNameToMatch wildcardExportDeclarations
      finishImportElement env stmt importName importNameToMatch exportSymbol
        exportSymbolDeclaration diagnostics
    | some es =>
      match optionalSymbolToMatch with
      | some target =>
        if es.name != target.name then
          .ok diagnostics
        else
          finishImportElement env stmt importName importNameToMatch (some es)
            ((env.getDeclarations es).head?) diagnostics
      | none =>
        finishImportElement env stmt importName importNameToMatch (some es)
          ((env.getDeclarations es).head?) diagnostics

/-- `isImportDeclarationDeprecated` (src/src/index.ts lines 229-584),
restricted to import-declaration nodes (for any other node the function
returns `undefined` before doing anything).  Absent/non-named bindings,
a module specifier that fails to resolve, a resolved file inside
`node_modules`, and a missing module source file or module symbol all
yield an empty diagnostics list; otherwise each named binding element is
processed against the module's exports. -/
def isImportDeclarationDeprecated (env : Checker) (stmt : ImportStmt)
    (optionalSymbolToMatch : Option Symbol) :
    Except String (List Diagnostic) :=
  match stmt.namedBindings with
  | none => .ok []
  | some elements =>
    match env.resolveModuleName stmt.moduleName stmt.node.file with
    | none => .ok []
    | some resolvedFileName =>
      if containsSubstr resolvedFileName "node_modules" then .ok []
      else
        match env.getSourceFileSymbol resolvedFileName with
        | none => .ok []
        | some moduleSymbol =>
          let exports := env.getExportsOfModule moduleSymbol
          elements.foldlM
            (processImportElement env stmt moduleSymbol resolvedFileName
              exports optionalSymbolToMatch)
            []

/-!  ## The wrapped diagnostics operations (src/src/index.ts lines 618-749)  -/

/-- Environment of one `checkDiagnostics` pass: `getSourceFile` is
`program.getSourceFile`, `hasChecker` whether the language service yielded
a type checker, and `visit` the diagnostics collected by the recursive AST
traversal of the source file (src/src/index.ts lines 638-733), which
dispatches every node through `isImportDeclarationDeprecated`. -/
structure PassEnv where
  getSourceFile : String → Option Node
  hasChecker : Bool
  visit : Node → DiagnosticCategory → List Diagnostic

/-- `checkDiagnostics` (src/src/index.ts lines 618-737): the traversal runs
only when the source file exists, a checker is available, and the file type
is supported; its findings are merged with the prior service's diagnostics
through `getUniqueDiagnostics`.  (The cache clearing at entry has no
observable effect in this pure embedding.) -/
def checkDiagnostics (env : PassEnv) (fileName : String)
    (priorDiagnostics : List Diagnostic) (category : DiagnosticCategory) :
    List Diagnostic :=
  let diagnostics : List Diagnostic :=
    match env.getSourceFile fileName with
    | some sourceFile =>
      if env.hasChecker && isSupportedFileType fileName then
        env.visit sourceFile category
      else []
    | none => []
  getUniqueDiagnostics priorDiagnostics diagnostics

/-- `proxy.getSuggestionDiagnostics` (src/src/index.ts lines 740-743):
prior diagnostics come from the wrapped service. -/
def getSuggestionDiagnostics (env : PassEnv)
    (oldGetSuggestionDiagnostics : String → List Diagnostic)
    (fileName : String) : List Diagnostic :=
  checkDiagnostics env fileName (oldGetSuggestionDiagnostics fileName)
    DiagnosticCategory.suggestion

/-- `proxy.getSemanticDiagnostics` (src/src/index.ts lines 746-749). -/
def getSemanticDiagnostics (env : PassEnv)
    (oldGetSemanticDiagnostics : String → List Diagnostic)
    (fileName : String) : List Diagnostic :=
  checkDiagnostics env fileName (oldGetSemanticDiagnostics fileName)
    DiagnosticCategory.warning

/-!  ## Concrete program fixtures used to instantiate the theorems  -/

/-- A checker whose every query comes back empty/absent. -/
def emptyChecker : Checker where
  symbols := []
  getDeclarations := fun _ => []
  getAliasedSymbol := fun _ => none
  getSymbolAtLocation := fun _ => none
  parentsOf := fun _ => []
  resolveModuleName := fun _ _ => none
  getSourceFileSymbol := fun _ => none
  getExportsOfModule := fun _ => []
  wildcardExportDeclsOf := fun _ => []
  findImportNodeByText := fun _ _ => none
  findImportSpecifier := fun _ _ => none

/-- Symbol `A` of the synthetic alias cycle: an alias whose target is `B`. -/
def symA : Symbol := ⟨0, "A", true⟩

/-- Symbol `B` of the synthetic alias cycle: an alias whose target is `A`. -/
def symB : Symbol := ⟨1, "B", true⟩

/-- A program with exactly the two-symbol alias cycle `A -> B -> A` and no
deprecated declaration anywhere. -/
def cycleEnv : Checker := { emptyChecker with
  symbols := [symA, symB]
  getAliasedSymbol := fun s =>
    if s = symA then some symB else if s = symB then some symA else none }

/-- A non-alias symbol with two declarations. -/
def symS : Symbol := ⟨2, "S", false⟩

/-- The primary (first) declaration of `symS`: not deprecated. -/
def declClean : Node :=
  ⟨NodeKind.declStatement, 0, 8, "s.ts", "var s one", ["// the first declaration"], []⟩

/-- The second declaration of `symS`: deprecated by its leading comment. -/
def declDep : Node :=
  ⟨NodeKind.declStatement, 10, 20, "s.ts", "var s two", ["// @deprecated"], []⟩

/-- A program in which only the non-primary declaration of `symS` is
deprecated. -/
def envC2 : Checker := { emptyChecker with
  symbols := [symS]
  getDeclarations := fun s => if s = symS then [declClean, declDep] else [] }

/-- First wildcard export declaration of module `b`. -/
def w1Node : Node := ⟨NodeKind.other, 0, 20, "b.ts", "export star one", [], []⟩

/-- Second wildcard export declaration of module `b`. -/
def w2Node : Node := ⟨NodeKind.other, 21, 41, "b.ts", "export star two", [], []⟩

/-- The source-file node of module `b` (parent of both wildcard export
declarations). -/
def bSourceFileNode : Node := ⟨NodeKind.sourceFile, 0, 100, "b.ts", "", [], []⟩

/-- The module symbol of `b`. -/
def modB : Symbol := ⟨3, "moduleB", false⟩

/-- The module symbol of `x1`. -/
def modX1 : Symbol := ⟨4, "moduleX1", false⟩

/-- The module symbol of `x2`. -/
def modX2 : Symbol := ⟨5, "moduleX2", false⟩

/-- The export `g` of module `x1`. -/
def symG1 : Symbol := ⟨6, "g", false⟩

/-- The export `g` of module `x2`. -/
def symG2 : Symbol := ⟨7, "g", false⟩

/-- Wildcard declaration forwarding module `x1`. -/
def wDecl1 : WildcardDecl := ⟨w1Node, "./x1", "./x1", bSourceFileNode⟩

/-- Wildcard declaration forwarding module `x2`. -/
def wDecl2 : WildcardDecl := ⟨w2Node, "./x2", "./x2", bSourceFileNode⟩

/-- A program where module `b` holds two wildcard export declarations,
forwarding modules `x1` and `x2`, and *both* forwarded modules export a
symbol named `g`. -/
def envC3 : Checker := { emptyChecker with
  symbols := [modB, modX1, modX2, symG1, symG2]
  resolveModuleName := fun spec _ =>
    if spec = "./x1" then some "x1.ts"
    else if spec = "./x2" then some "x2.ts" else none
  getSourceFileSymbol := fun f =>
    if f = "x1.ts" then some modX1
    else if f = "x2.ts" then some modX2 else none
  getExportsOfModule := fun m =>
    if m = modX1 then [symG1] else if m = modX2 then [symG2] else []
  getSymbolAtLocation := fun n => if n = bSourceFileNode then some modB else none }

/-- The import-declaration node of the vendored-module import. -/
def importNodeC4 : Node :=
  ⟨NodeKind.other, 0, 34, "app.ts", "import map from lodash", [], []⟩

/-- The `map` identifier node of the vendored-module import. -/
def mapNameNode : Node := ⟨NodeKind.other, 9, 12, "app.ts", "map", [], []⟩

/-- `import ... from "lodash"` with the named binding `map`. -/
def stmtC4 : ImportStmt := ⟨importNodeC4, "lodash", some [⟨"map", mapNameNode⟩]⟩

/-- A program in which `lodash` resolves into a `node_modules` directory. -/
def envC4 : Checker := { emptyChecker with
  resolveModuleName := fun m f =>
    if m = "lodash" ∧ f = "app.ts" then some "/p/node_modules/lodash/index.js"
    else none }

/-- The source-file node of module `a` (the file being analyzed). -/
def srcFileA : Node := ⟨NodeKind.sourceFile, 0, 200, "a.ts", "", [], []⟩

/-- The deprecated declaration of `X`, spanning offsets 10 to 40 of `a.ts`. -/
def declX : Node :=
  ⟨NodeKind.declStatement, 10, 40, "a.ts", "function x impl", ["// @deprecated use y"], []⟩

/-- The export statement node (the usage site), spanning offsets 100 to 115
of `a.ts`. -/
def exportNodeC5 : Node := ⟨NodeKind.other, 100, 115, "a.ts", "export x clause", [], []⟩

/-- The `X` identifier inside the export clause. -/
def elXNameNode : Node := ⟨NodeKind.other, 108, 109, "a.ts", "X", [], []⟩

/-- The exported symbol `X`, declared by `declX`. -/
def symX : Symbol := ⟨8, "X", false⟩

/-- The export clause element `X`. -/
def elX : ExportSpecifierEl := ⟨"X", elXNameNode⟩

/-- A program with `export { X }` in the same file as the deprecated
declaration of `X`. -/
def envC5 : Checker := { emptyChecker with
  symbols := [symX]
  getDeclarations := fun s => if s = symX then [declX] else []
  getSymbolAtLocation := fun n => if n = elXNameNode then some symX else none
  parentsOf := fun n => if n = declX then [srcFileA] else [] }

/-- The diagnostic the export handler produces for the `envC5` fixture:
positioned at the declaration's span (10, 30), not at the usage site. -/
def c5Diagnostic : Diagnostic :=
  { file := "a.ts"
    start := 10
    length := 30
    messageText := sq ++ "X" ++ sq ++ " is deprecated."
    category := DiagnosticCategory.warning
    reportsDeprecated := true
    code := 6385
    relatedInformation := [⟨10, 30, "a.ts",
      "The declaration was marked as deprecated here.",
      DiagnosticCategory.error, 2798⟩] }

/-- A deprecated declaration of `f` in `lib.ts`. -/
def declF : Node :=
  ⟨NodeKind.declStatement, 0, 25, "lib.ts", "function f impl", ["// @deprecated"], []⟩

/-- A usage-site node for `f` in `use.ts`. -/
def usageNodeC6 : Node := ⟨NodeKind.importSpecifier, 50, 51, "use.ts", "f", [], []⟩

/-- The diagnostic produced for the usage of the deprecated `f`: message
with code 6385 at the usage node's span, one related-information entry with
code 2798 at the declaration. -/
def c6Diagnostic : Diagnostic :=
  { file := "use.ts"
    start := 50
    length := 1
    messageText := sq ++ "f" ++ sq ++ " is deprecated."
    category := DiagnosticCategory.warning
    reportsDeprecated := true
    code := 6385
    relatedInformation := [⟨0, 25, "lib.ts",
      "The declaration was marked as deprecated here.",
      DiagnosticCategory.error, 2798⟩] }

/-- A prior diagnostic and -/
def p7 : Diagnostic := ⟨"m.ts", 5, 3, "prior duplicate", DiagnosticCategory.warning, true, 6385, []⟩

/-- a new diagnostic with the identical deduplication key but different
message text. -/
def q7 : Diagnostic := ⟨"m.ts", 5, 3, "new duplicate", DiagnosticCategory.warning, true, 6385, []⟩

/-- A diagnostic occurring twice in the prior list. -/
def p8 : Diagnostic := ⟨"m.ts", 7, 2, "repeated prior", DiagnosticCategory.warning, true, 6385, []⟩

/-- A symbol with zero declarations. -/
def sym9 : Symbol := ⟨9, "f", false⟩

/-- A usage node for the declaration-less symbol. -/
def n9 : Node := ⟨NodeKind.importSpecifier, 3, 4, "use.ts", "f", [], []⟩

/-- No two entries of the list share the deduplication key. -/
def keyDistinct (l : List Diagnostic) : Prop :=
  l.Pairwise fun a b => areDiagnosticEqual a b = false

/-- Safety of the wildcard fallback on a declaration list: every resolved
forwarded module has a module symbol, so `getExportsOfModule` never sees
`undefined` and the loop cannot raise. -/
def wildcardSafeB (env : Checker) (moduleFileName : String)
    (decls : List WildcardDecl) : Bool :=
  decls.all fun w =>
    match resolveWildcardModule env moduleFileName w with
    | none => true
    | some f => (env.getSourceFileSymbol f).isSome

/-- A pass environment with no source file for any name. -/
def passEnvC10 : PassEnv :=
  ⟨fun _ => none, true, fun _ _ => []⟩

/-- A diagnostic reported by the wrapped (prior) service. -/
def d10 : Diagnostic :=
  ⟨"readme.md", 0, 1, "prior entry", DiagnosticCategory.error, false, 1111, []⟩

/-- The wrapped service's diagnostics function. -/
def oldDiagsC10 : String → List Diagnostic := fun _ => [d10]

/-!  ## Lemmas  -/

/-- A duplicate-free list of symbols drawn from `l2` is no longer than
`l2`. -/
theorem nodup_subset_length_le {l l2 : List Symbol} (hn : l.Nodup)
    (hs : ∀ x ∈ l, x ∈ l2) : l.length ≤ l2.length :=
  (hn.subperm hs).length_le

/-- With the walker's invariant — the current symbol lies in the program,
the visited-set is duplicate-free and drawn from the program, and the fuel
still covers the unvisited symbols — the loop body never exhausts its
fuel. -/
theorem isSymbolDeprecatedRecursivelyAux_isSome (env : Checker)
    (hclosed : closedCheckerB env = true) :
    ∀ (fuel : Nat) (current : Symbol) (visited : List Symbol),
      current ∈ env.symbols → visited.Nodup →
      (∀ v ∈ visited, v ∈ env.symbols) →
      env.symbols.length + 1 ≤ fuel + visited.length →
      (isSymbolDeprecatedRecursivelyAux env fuel current visited).isSome = true := by
  intro fuel
  induction fuel with
  | zero =>
    intro current visited _ hn hsub hle
    exact absurd (nodup_subset_length_le hn hsub) (by omega)
  | succ n ih =>
    intro current visited hc hn hsub hle
    rw [isSymbolDeprecatedRecursivelyAux]
    by_cases h1 : current ∈ visited
    · simp [h1]
    · by_cases h2 : isSymbolDeprecated env current
      · simp [h1, h2]
      · by_cases h3 : current.isAlias
        · cases heq : env.getAliasedSymbol current with
          | none => simp [h1, h2, h3, heq]
          | some a =>
            by_cases h4 : a = current
            · simp [h1, h2, h3, heq, h4]
            · have ha : a ∈ env.symbols := by
                have hall := (List.all_eq_true.mp hclosed) current hc
                rw [heq] at hall
                simp only [decide_eq_true_eq] at hall
                exact hall
              have hrec := ih a (current :: visited)
                ha (List.nodup_cons.mpr ⟨h1, hn⟩)
                (by
                  intro v hv
                  rcases List.mem_cons.mp hv with rfl | hv2
                  · exact hc
                  · exact hsub v hv2)
                (by simp only [List.length_cons]; omega)
              simp [h1, h2, h3, heq, h4, hrec]
        · simp [h1, h2, h3]

/-- The walker reports `some true` with a given fuel exactly when some
symbol of the corresponding alias chain (same fuel, same visited-set) has
a deprecated declaration. -/
theorem isSymbolDeprecatedRecursivelyAux_eq_chain (env : Checker) :
    ∀ (fuel : Nat) (current : Symbol) (visited : List Symbol),
      isSymbolDeprecatedRecursivelyAux env fuel current visited = some true ↔
      ∃ t ∈ aliasChainAux env fuel current visited,
        isSymbolDeprecated env t = true := by
  intro fuel
  induction fuel with
  | zero =>
    intro current visited
    simp [isSymbolDeprecatedRecursivelyAux, aliasChainAux]
  | succ n ih =>
    intro current visited
    rw [isSymbolDeprecatedRecursivelyAux, aliasChainAux]
    by_cases h1 : current ∈ visited
    · rw [if_pos h1, if_pos h1]
      simp
    · rw [if_neg h1, if_neg h1]
      by_cases h2 : isSymbolDeprecated env current = true
      · rw [if_pos h2]
        constructor
        · intro _
          exact ⟨current, List.mem_cons_self _ _, h2⟩
        · intro _
          rfl
      · rw [if_neg h2]
        by_cases h3 : current.isAlias = true
        · have hcond : ¬((!current.isAlias) = true) := by simp [h3]
          rw [if_neg hcond, if_neg hcond]
          cases heq : env.getAliasedSymbol current with
          | none =>
            simp only [heq]
            constructor
            · intro h
              exact absurd h (by simp)
            · intro h
              rcases h with ⟨t, ht, hdep⟩
              rw [List.mem_singleton.mp ht] at hdep
              exact absurd hdep h2
          | some a =>
            simp only [heq]
            by_cases h4 : a = current
            · rw [if_pos h4, if_pos h4]
              constructor
              · intro h
                exact absurd h (by simp)
              · intro h
                rcases h with ⟨t, ht, hdep⟩
                rw [List.mem_singleton.mp ht] at hdep
                exact absurd hdep h2
            · rw [if_neg h4, if_neg h4]
              rw [ih]
              constructor
              · intro h
                rcases h with ⟨t, ht, hdep⟩
                exact ⟨t, List.mem_cons_of_mem _ ht, hdep⟩
              · intro h
                rcases h with ⟨t, ht, hdep⟩
                rcases List.mem_cons.mp ht with rfl | ht2
                · exact absurd hdep h2
                · exact ⟨t, ht2, hdep⟩
        · have hcond : (!current.isAlias) = true := by simp [h3]
          rw [if_pos hcond, if_pos hcond]
          constructor
          · intro h
            exact absurd h (by simp)
          · intro h
            rcases h with ⟨t, ht, hdep⟩
            rw [List.mem_singleton.mp ht] at hdep
            exact absurd hdep h2

/-- The deduplication key equality, unfolded. -/
theorem areDiagnosticEqual_iff {a b : Diagnostic} :
    areDiagnosticEqual a b = true ↔
      a.start = b.start ∧ a.length = b.length ∧ a.code = b.code ∧
      a.category = b.category ∧ a.file = b.file := by
  simp [areDiagnosticEqual, Bool.and_eq_true, beq_iff_eq, and_assoc]

/-- Key equality is reflexive. -/
theorem areDiagnosticEqual_refl (a : Diagnostic) :
    areDiagnosticEqual a a = true :=
  areDiagnosticEqual_iff.mpr ⟨rfl, rfl, rfl, rfl, rfl⟩

/-- Every element of the deduplicating fold comes from the accumulator or
from the new list. -/
theorem mem_foldl_addUnique :
    ∀ (ds acc : List Diagnostic) (x : Diagnostic),
      x ∈ ds.foldl addUniqueDiagnostic acc → x ∈ acc ∨ x ∈ ds := by
  intro ds
  induction ds with
  | nil =>
    intro acc x h
    exact Or.inl h
  | cons d tl ih =>
    intro acc x h
    rw [List.foldl_cons] at h
    rcases ih (addUniqueDiagnostic acc d) x h with h2 | h2
    · by_cases hc : (acc.any fun u => areDiagnosticEqual u d) = true
      · rw [addUniqueDiagnostic, if_pos hc] at h2
        exact Or.inl h2
      · rw [addUniqueDiagnostic, if_neg hc] at h2
        rcases List.mem_append.mp h2 with h3 | h3
        · exact Or.inl h3
        · rw [List.mem_singleton.mp h3]
          exact Or.inr (List.mem_cons_self _ _)
    · exact Or.inr (List.mem_cons_of_mem _ h2)

/-- The deduplicating fold never drops an accumulator element. -/
theorem mem_foldl_addUnique_of_mem :
    ∀ (ds acc : List Diagnostic) (x : Diagnostic),
      x ∈ acc → x ∈ ds.foldl addUniqueDiagnostic acc := by
  intro ds
  induction ds with
  | nil =>
    intro acc x h
    exact h
  | cons d tl ih =>
    intro acc x h
    rw [List.foldl_cons]
    apply ih
    rw [addUniqueDiagnostic]
    split
    · exact h
    · exact List.mem_append_left _ h

/-- Every new diagnostic ends up key-represented in the deduplicating
fold's result. -/
theorem foldl_addUnique_rep :
    ∀ (ds acc : List Diagnostic) (d : Diagnostic), d ∈ ds →
      ∃ u, u ∈ ds.foldl addUniqueDiagnostic acc ∧
        areDiagnosticEqual u d = true := by
  intro ds
  induction ds with
  | nil =>
    intro acc d h
    exact absurd h (List.not_mem_nil d)
  | cons d0 tl ih =>
    intro acc d h
    rw [List.foldl_cons]
    rcases List.mem_cons.mp h with rfl | h2
    · by_cases hc : (acc.any fun u => areDiagnosticEqual u d) = true
      · rcases List.any_eq_true.mp hc with ⟨u, hu, hequ⟩
        refine ⟨u, mem_foldl_addUnique_of_mem tl _ u ?_, hequ⟩
        rw [addUniqueDiagnostic, if_pos hc]
        exact hu
      · refine ⟨d, mem_foldl_addUnique_of_mem tl _ d ?_, areDiagnosticEqual_refl d⟩
        rw [addUniqueDiagnostic, if_neg hc]
        exact List.mem_append_right _ (List.mem_singleton.mpr rfl)
    · exact ih (addUniqueDiagnostic acc d0) d h2

/-- The deduplicating fold preserves pairwise key-distinctness of the
accumulator. -/
theorem foldl_addUnique_pairwise :
    ∀ (ds acc : List Diagnostic),
      acc.Pairwise (fun a b => areDiagnosticEqual a b = false) →
      (ds.foldl addUniqueDiagnostic acc).Pairwise
        (fun a b => areDiagnosticEqual a b = false) := by
  intro ds
  induction ds with
  | nil =>
    intro acc h
    exact h
  | cons d tl ih =>
    intro acc h
    rw [List.foldl_cons]
    apply ih
    rw [addUniqueDiagnostic]
    split
    · exact h
    · next hc =>
      rw [List.pairwise_append]
      refine ⟨h, List.pairwise_singleton _ _, ?_⟩
      intro a ha b hb
      rw [List.mem_singleton.mp hb]
      have hf : (acc.any fun u => areDiagnosticEqual u d) = false :=
        Bool.eq_false_iff.mpr hc
      exact Bool.eq_false_iff.mpr (List.any_eq_false.mp hf a ha)

/-- Merging an empty new-diagnostics list returns the prior list
unchanged. -/
theorem getUniqueDiagnostics_nil (prior : List Diagnostic) :
    getUniqueDiagnostics prior [] = prior := by
  simp [getUniqueDiagnostics, List.filter_true]

/-- The wildcard-fallback loop, characterized: when every resolved
forwarded module has a module symbol (so the loop never raises), the
result is the *last* matching wildcard declaration — the first match of
the reversed list — or the starting accumulator when none matches. -/
theorem wildcardFallbackGo_eq (env : Checker) (mf nm : String) :
    ∀ (decls : List WildcardDecl) (acc : Option Symbol × Option Node),
      (∀ w ∈ decls, ∀ f, resolveWildcardModule env mf w = some f →
        (env.getSourceFileSymbol f).isSome = true) →
      wildcardFallbackGo env mf nm decls acc =
        .ok (match decls.reverse.find? (wildcardHasMatch env mf nm) with
          | some w => (env.getSymbolAtLocation w.parent, some w.node)
          | none => acc) := by
  intro decls
  induction decls with
  | nil =>
    intro acc _
    rfl
  | cons w ws ih =>
    intro acc h
    have hws : ∀ w2 ∈ ws, ∀ f, resolveWildcardModule env mf w2 = some f →
        (env.getSourceFileSymbol f).isSome = true :=
      fun w2 hw2 => h w2 (List.mem_cons_of_mem _ hw2)
    rw [wildcardFallbackGo]
    cases hres : resolveWildcardModule env mf w with
    | none =>
      have hmatch : wildcardHasMatch env mf nm w = false := by
        simp [wildcardHasMatch, hres]
      have hstep : wildcardFallbackStep env mf nm acc w = .ok acc := by
        simp [wildcardFallbackStep, hres]
      rw [hstep]
      show wildcardFallbackGo env mf nm ws acc = _
      rw [ih acc hws, List.reverse_cons, List.find?_append]
      cases hfind : ws.reverse.find? (wildcardHasMatch env mf nm) with
      | none => simp [hfind, List.find?, hmatch]
      | some w2 => simp [hfind]
    | some f =>
      cases hsym : env.getSourceFileSymbol f with
      | none =>
        have := h w (List.mem_cons_self _ _) f hres
        rw [hsym] at this
        simp at this
      | some m =>
        by_cases hfound : ((env.getExportsOfModule m).find? fun e =>
            e.name == nm).isSome = true
        · have hmatch : wildcardHasMatch env mf nm w = true := by
            simp only [wildcardHasMatch, hres, hsym]
            exact hfound
          have hstep : wildcardFallbackStep env mf nm acc w =
              .ok (env.getSymbolAtLocation w.parent, some w.node) := by
            simp only [wildcardFallbackStep, hres, hsym, hfound, if_true]
          rw [hstep]
          show wildcardFallbackGo env mf nm ws
            (env.getSymbolAtLocation w.parent, some w.node) = _
          rw [ih _ hws, List.reverse_cons, List.find?_append]
          cases hfind : ws.reverse.find? (wildcardHasMatch env mf nm) with
          | none => simp [hfind, List.find?, hmatch]
          | some w2 => simp [hfind]
        · have hmatch : wildcardHasMatch env mf nm w = false := by
            simp only [wildcardHasMatch, hres, hsym]
            exact Bool.eq_false_iff.mpr hfound
          have hstep : wildcardFallbackStep env mf nm acc w = .ok acc := by
            simp only [wildcardFallbackStep, hres, hsym]
            rw [if_neg hfound]
          rw [hstep]
          show wildcardFallbackGo env mf nm ws acc = _
          rw [ih acc hws, List.reverse_cons, List.find?_append]
          cases hfind : ws.reverse.find? (wildcardHasMatch env mf nm) with
          | none => simp [hfind, List.find?, hmatch]
          | some w2 => simp [hfind]

/-!  ## Claim theorems  -/

/-- C1: for every starting symbol of a program whose alias edges stay
inside the program's symbol list, the alias-chain walker
`isSymbolDeprecatedRecursively` terminates — the visited-set admits each
symbol at most once, so the walker returns a result within `|symbols| + 1`
iterations; and on the synthetic alias cycle (`A` aliases `B`, `B` aliases
`A`) with no deprecated symbol it terminates and returns `false`. -/
theorem c1_alias_walker_terminates :
    (∀ (env : Checker) (symbol : Symbol), closedCheckerB env = true →
      symbol ∈ env.symbols →
      (isSymbolDeprecatedRecursively env symbol).isSome = true) ∧
    isSymbolDeprecatedRecursively cycleEnv symA = some false := by
  constructor
  · intro env symbol hclosed hmem
    exact isSymbolDeprecatedRecursivelyAux_isSome env hclosed
      (env.symbols.length + 1) symbol [] hmem List.nodup_nil
      (by intro v hv; exact absurd hv (List.not_mem_nil v)) (by simp)
  · decide

/-- Witness for C1: the termination statement applied to the concrete
two-symbol alias cycle. -/
theorem c1_alias_walker_terminates_witness :
    (isSymbolDeprecatedRecursively cycleEnv symA).isSome = true :=
  c1_alias_walker_terminates.1 cycleEnv symA (by decide) (by decide)

/-- C2 (amended): the alias-chain walker returns `true` exactly when some
symbol along the alias chain has *some* declaration — not necessarily the
primary (first) one — marked deprecated by its own leading comment
(`isSymbolDeprecated` runs `declarations.some(...)` over all
declarations). -/
theorem c2_chain_any_declaration (env : Checker) (symbol : Symbol) :
    isSymbolDeprecatedRecursively env symbol = some true ↔
      ∃ t ∈ aliasChain env symbol, isSymbolDeprecated env t = true :=
  isSymbolDeprecatedRecursivelyAux_eq_chain env (env.symbols.length + 1) symbol []

/-- Counterexample to C2 as stated: a one-symbol chain whose primary
(first) declaration is *not* deprecated, while a non-primary declaration
is; the walker nevertheless returns `true`. -/
theorem c2_primary_declaration_counterexample :
    isSymbolDeprecatedRecursively envC2 symS = some true ∧
    isDeclarationDeprecated ((envC2.getDeclarations symS).head?) = false ∧
    aliasChain envC2 symS = [symS] := by
  refine ⟨by decide, by decide, by decide⟩

/-- C3 (amended): in the wildcard fallback, when the forwarded modules all
resolve safely, the binding goes to the *last* matching wildcard
declaration in the module's wildcard-declaration order (the `forEach` has
no break, so each later match overwrites the earlier one); only the single
hop through each declaration's own forwarded module is consulted. -/
theorem c3_last_match_wins (env : Checker)
    (moduleFileName importNameToMatch : String) (decls : List WildcardDecl)
    (hsafe : wildcardSafeB env moduleFileName decls = true) :
    wildcardFallback env moduleFileName importNameToMatch decls =
      .ok (match decls.reverse.find?
          (wildcardHasMatch env moduleFileName importNameToMatch) with
        | some w => (env.getSymbolAtLocation w.parent, some w.node)
        | none => (none, none)) := by
  apply wildcardFallbackGo_eq
  intro w hw f hres
  have hall := (List.all_eq_true.mp hsafe) w hw
  rw [hres] at hall
  simpa using hall

/-- Witness for C3 (amended) at the concrete two-wildcard module. -/
theorem c3_last_match_wins_witness :
    wildcardFallback envC3 "b.ts" "g" [wDecl1, wDecl2] =
      .ok (match [wDecl1, wDecl2].reverse.find?
          (wildcardHasMatch envC3 "b.ts" "g") with
        | some w => (envC3.getSymbolAtLocation w.parent, some w.node)
        | none => (none, none)) :=
  c3_last_match_wins envC3 "b.ts" "g" [wDecl1, wDecl2] (by decide)

/-- Counterexample to C3 as stated: two wildcard declarations both forward
an export named `g`; the resolution binds to the *second* declaration's
node, not the first matching one. -/
theorem c3_first_match_counterexample :
    wildcardFallback envC3 "b.ts" "g" [wDecl1, wDecl2] =
      .ok (some modB, some w2Node) ∧
    wildcardHasMatch envC3 "b.ts" "g" wDecl1 = true ∧
    wildcardHasMatch envC3 "b.ts" "g" wDecl2 = true ∧
    w2Node ≠ w1Node := by
  refine ⟨by decide, by decide, by decide, by decide⟩

/-- C4: an import whose module specifier fails to resolve, or resolves to
a file whose path contains `node_modules`, contributes an empty diagnostics
list, whatever the module's content. -/
theorem c4_skips_vendored_and_unresolved (env : Checker) (stmt : ImportStmt)
    (optionalSymbolToMatch : Option Symbol)
    (h : env.resolveModuleName stmt.moduleName stmt.node.file = none ∨
      ∃ f, env.resolveModuleName stmt.moduleName stmt.node.file = some f ∧
        containsSubstr f "node_modules" = true) :
    isImportDeclarationDeprecated env stmt optionalSymbolToMatch = .ok [] := by
  rw [isImportDeclarationDeprecated]
  cases stmt.namedBindings with
  | none => rfl
  | some elements =>
    rcases h with hres | ⟨f, hres, hcont⟩
    · simp [hres]
    · simp [hres, hcont]

/-- Witness for C4: the concrete `lodash` import resolving into
`node_modules`. -/
theorem c4_witness :
    isImportDeclarationDeprecated envC4 stmtC4 none = .ok [] :=
  c4_skips_vendored_and_unresolved envC4 stmtC4 none
    (Or.inr ⟨"/p/node_modules/lodash/index.js", by decide, by decide⟩)

/-- C5 failing input: `export { X }` where the declaration of `X` (offsets
10-40 of `a.ts`) carries the deprecation comment, while the export
statement (the usage site) spans offsets 100-115.  The named-export direct
check passes `exportDeclaration` as the diagnostic's node, so the produced
diagnostic is positioned at the deprecated declaration itself — its start
is 10, not the usage node's 100 — contradicting the invariant that the
declaration's location appear only in related-information. -/
theorem c5_diagnostic_at_declaration :
    checkNamedExports envC5 exportNodeC5 none [elX] = .ok (some c5Diagnostic) ∧
    c5Diagnostic.start = declX.start ∧
    c5Diagnostic.length = declX.stop - declX.start ∧
    exportNodeC5.start ≠ declX.start := by
  refine ⟨by decide, by decide, by decide, by decide⟩

/-- C6: every diagnostic `createDeprecatedDiagnostic` produces carries the
message `'name' is deprecated.`, code 6385, and exactly one
related-information entry spanning the override-or-primary declaration
with code 2798, distinct from the primary code. -/
theorem c6_diagnostic_shape (env : Checker) (node : Option Node)
    (symbolName : String) (symbol : Option Symbol) (sourceFile : String)
    (priorDiagnostics : List Diagnostic) (declarationOverride : Option Node)
    (d : Diagnostic)
    (h : createDeprecatedDiagnostic env node symbolName symbol sourceFile
      priorDiagnostics declarationOverride = .ok (some d)) :
    d.messageText = sq ++ symbolName ++ sq ++ " is deprecated." ∧
    d.code = 6385 ∧
    (∃ declaration,
      (declarationOverride = some declaration ∨
        (declarationOverride = none ∧
          symbol.bind (fun s => (env.getDeclarations s).head?) = some declaration)) ∧
      d.relatedInformation = [{
        start := declaration.start
        length := declaration.stop - declaration.start
        file := declaration.file
        messageText := "The declaration was marked as deprecated here."
        category := DiagnosticCategory.error
        code := 2798 }]) ∧
    d.relatedInformation.length = 1 ∧
    ∀ r ∈ d.relatedInformation, r.code = 2798 ∧ r.code ≠ d.code := by
  simp only [createDeprecatedDiagnostic] at h
  split at h
  · exact Except.noConfusion h
  next n =>
    split at h
    · exact Except.noConfusion h
    next declaration hdecl =>
      split at h
      · simp at h
      next hrep =>
        simp only [Except.ok.injEq, Option.some.injEq] at h
        subst h
        refine ⟨rfl, rfl, ⟨declaration, ?_, rfl⟩, rfl, ?_⟩
        · cases declarationOverride with
          | some x => exact Or.inl hdecl
          | none => exact Or.inr ⟨rfl, hdecl⟩
        · intro r hr
          rw [List.mem_singleton.mp hr]
          refine ⟨rfl, ?_⟩
          show (2798 : Nat) ≠ 6385
          decide

/-- Witness for C6 at a concrete deprecated declaration of `f`. -/
theorem c6_witness :
    createDeprecatedDiagnostic emptyChecker (some usageNodeC6) "f" none "use.ts"
      [] (some declF) = .ok (some c6Diagnostic) ∧
    c6Diagnostic.messageText = sq ++ "f" ++ sq ++ " is deprecated." ∧
    c6Diagnostic.code = 6385 :=
  ⟨rfl,
   (c6_diagnostic_shape emptyChecker (some usageNodeC6) "f" none "use.ts" []
     (some declF) c6Diagnostic rfl).1,
   (c6_diagnostic_shape emptyChecker (some usageNodeC6) "f" none "use.ts" []
     (some declF) c6Diagnostic rfl).2.1⟩

/-- C7 (amended): when a prior diagnostic and a new diagnostic share the
deduplication key, the *new* diagnostic is the one kept: the prior
duplicate survives only if it also occurs verbatim among the new
diagnostics, and the result always retains a key-equal representative of
the new diagnostic. -/
theorem c7_new_diagnostic_wins (prior ds : List Diagnostic) (p d : Diagnostic)
    (_hp : p ∈ prior) (hd : d ∈ ds) (heq : areDiagnosticEqual d p = true) :
    (p ∈ getUniqueDiagnostics prior ds → p ∈ ds) ∧
    ∃ u, u ∈ getUniqueDiagnostics prior ds ∧ areDiagnosticEqual u d = true := by
  constructor
  · intro hmem
    simp only [getUniqueDiagnostics] at hmem
    rcases mem_foldl_addUnique ds _ p hmem with hfil | hds
    · exfalso
      have hpred := List.of_mem_filter hfil
      rw [Bool.not_eq_true'] at hpred
      have hany : (ds.any fun dd => areDiagnosticEqual dd p) = true :=
        List.any_eq_true.mpr ⟨d, hd, heq⟩
      rw [hany] at hpred
      exact Bool.noConfusion hpred
    · exact hds
  · simp only [getUniqueDiagnostics]
    exact foldl_addUnique_rep ds _ d hd

/-- Witness for C7 (amended) at the concrete key-equal pair. -/
theorem c7_new_diagnostic_wins_witness :
    (p7 ∈ getUniqueDiagnostics [p7] [q7] → p7 ∈ [q7]) ∧
    ∃ u, u ∈ getUniqueDiagnostics [p7] [q7] ∧ areDiagnosticEqual u q7 = true :=
  c7_new_diagnostic_wins [p7] [q7] p7 q7 (by decide) (by decide) (by decide)

/-- Counterexample to C7 as stated: a prior and a new diagnostic share the
key but differ in message text; the merge keeps the new one and drops the
prior. -/
theorem c7_prior_wins_counterexample :
    getUniqueDiagnostics [p7] [q7] = [q7] ∧
    areDiagnosticEqual q7 p7 = true ∧
    p7 ≠ q7 := by
  refine ⟨by decide, by decide, by decide⟩

/-- C8 (amended): provided the prior list itself contains no two entries
sharing the deduplication key — as holds for the output of a previous merge
— the merge result contains no two key-equal entries; in particular
merging the same diagnostic in twice yields only one entry. -/
theorem c8_key_distinct_of_distinct_prior (prior ds : List Diagnostic)
    (h : keyDistinct prior) : keyDistinct (getUniqueDiagnostics prior ds) := by
  simp only [keyDistinct, getUniqueDiagnostics]
  exact foldl_addUnique_pairwise ds _ (h.sublist (List.filter_sublist _))

/-- Witness for C8 (amended): merging the diagnostic `p8` in twice — once
prior, once new — keeps the result key-distinct (one entry). -/
theorem c8_key_distinct_witness :
    keyDistinct (getUniqueDiagnostics [p8] [p8]) :=
  c8_key_distinct_of_distinct_prior [p8] [p8] (by simp [keyDistinct])

/-- Counterexample to C8 as stated: a prior list already containing the
same diagnostic twice passes through the merge unreduced, so the result
holds two entries with the identical key. -/
theorem c8_duplicate_prior_counterexample :
    getUniqueDiagnostics [p8, p8] [] = [p8, p8] ∧
    areDiagnosticEqual p8 p8 = true := by
  refine ⟨by decide, by decide⟩

/-- C9 (amended): comment extraction returns an empty sequence and the
deprecation checks return `false` on absent input (an undefined node or
declaration, a symbol with zero declarations); but diagnostic creation
does *not* tolerate a declaration-less symbol — with no declaration
override it reads `symbol.getDeclarations()[0]` unguarded and raises. -/
theorem c9_absent_input_tolerance :
    getCommentsFromNode none = [] ∧
    isDeclarationDeprecated none = false ∧
    (∀ (env : Checker) (s : Symbol), env.getDeclarations s = [] →
      isSymbolDeprecated env s = false) ∧
    (∀ (env : Checker) (n : Node) (symbolName : String) (s : Symbol)
        (sourceFile : String) (priorDiagnostics : List Diagnostic),
      env.getDeclarations s = [] →
      createDeprecatedDiagnostic env (some n) symbolName (some s) sourceFile
        priorDiagnostics none =
        .error "TypeError: Cannot read properties of undefined (reading getStart)") := by
  refine ⟨rfl, rfl, ?_, ?_⟩
  · intro env s h
    simp [isSymbolDeprecated, h]
  · intro env n symbolName s sourceFile priorDiagnostics h
    simp [createDeprecatedDiagnostic, h]

/-- Witness for C9 (amended) at the concrete declaration-less symbol. -/
theorem c9_absent_input_tolerance_witness :
    isSymbolDeprecated emptyChecker sym9 = false ∧
    createDeprecatedDiagnostic emptyChecker (some n9) "f" (some sym9) "use.ts"
      [] none =
      .error "TypeError: Cannot read properties of undefined (reading getStart)" :=
  ⟨c9_absent_input_tolerance.2.2.1 emptyChecker sym9 rfl,
   c9_absent_input_tolerance.2.2.2 emptyChecker n9 "f" sym9 "use.ts" [] rfl⟩

/-- Counterexample to C9 as stated: creating a diagnostic for a symbol with
zero declarations and no override raises instead of returning a negative
result. -/
theorem c9_creation_throws_counterexample :
    createDeprecatedDiagnostic emptyChecker (some n9) "f" (some sym9) "use.ts"
      [] none =
      .error "TypeError: Cannot read properties of undefined (reading getStart)" := by
  rfl

/-- C10: for a file name with an unsupported extension, the wrapped
semantic- and suggestion-diagnostics operations return exactly the wrapped
service's diagnostics, unchanged and in order, whatever the traversal would
have produced. -/
theorem c10_unsupported_file_passthrough (env : PassEnv)
    (oldDiagnostics : String → List Diagnostic) (fileName : String)
    (h : isSupportedFileType fileName = false) :
    getSemanticDiagnostics env oldDiagnostics fileName = oldDiagnostics fileName ∧
    getSuggestionDiagnostics env oldDiagnostics fileName = oldDiagnostics fileName ∧
    ∀ (priorDiagnostics : List Diagnostic) (category : DiagnosticCategory),
      checkDiagnostics env fileName priorDiagnostics category = priorDiagnostics := by
  have hmain : ∀ (prior : List Diagnostic) (cat : DiagnosticCategory),
      checkDiagnostics env fileName prior cat = prior := by
    intro prior cat
    rw [checkDiagnostics]
    cases henv : env.getSourceFile fileName with
    | none =>
      simp only [henv]
      exact getUniqueDiagnostics_nil prior
    | some sf =>
      simp only [henv, h, Bool.and_false, Bool.false_eq_true, if_false]
      exact getUniqueDiagnostics_nil prior
  exact ⟨hmain _ _, hmain _ _, hmain⟩

/-- Witness for C10 at a markdown file name. -/
theorem c10_unsupported_file_passthrough_witness :
    getSemanticDiagnostics passEnvC10 oldDiagsC10 "readme.md" =
      oldDiagsC10 "readme.md" :=
  (c10_unsupported_file_passthrough passEnvC10 oldDiagsC10 "readme.md"
    (by decide)).1

end TSDeprecation
